import Mathlib

/-!
Verification development for the FPGA line-array hardware abstraction layer
(`design/application/application/hw.py`).  The `HW` class is embedded as a
pure state-passing model: the 32-bit register window is a function from word
index to value, every operation returns both a result (or the Python
exception it raises) and the session state at that moment.  The buffer-swap
handshake is modelled two ways: as a trace of status-register reads (the
spin loop), and as a deterministic hardware transition in which a completed
swap flips the which-half bit and clears the busy bit.
-/

namespace HWModel

/-- The Python exception classes that `hw.py` can raise. -/
inductive PyExnClass where
  | ValueError
  | TypeError
  | PermissionError
  | IndexError
deriving DecidableEq

/-- The concrete exceptions raised by `hw.py` (class plus which raise site). -/
inductive PyErr where
  /-- `ValueError("test register not responding")` in `HW.__init__`. -/
  | valueErrorBusNotResponding
  /-- `ValueError("must be 1 <= gain <= 256")` in `HW.set_gain`. -/
  | valueErrorGainRange
  /-- the bare `raise ValueError` in `HW.close`. -/
  | valueErrorBare
  /-- numpy `ValueError` from `reshape(-1, dim)` when dim does not divide. -/
  | valueErrorReshape
  /-- `TypeError` from subscripting `self.r`/`self.d` once they are `None`. -/
  | typeErrorNone
  /-- `PermissionError` propagated from `os.open("/dev/mem", ...)`. -/
  | permissionError
  /-- `IndexError` from a Python list index out of range. -/
  | indexError
deriving DecidableEq

/-- The Python class of each exception. -/
def PyErr.cls : PyErr → PyExnClass
  | .valueErrorBusNotResponding => .ValueError
  | .valueErrorGainRange => .ValueError
  | .valueErrorBare => .ValueError
  | .valueErrorReshape => .ValueError
  | .typeErrorNone => .TypeError
  | .permissionError => .PermissionError
  | .indexError => .IndexError

/-- The mutable state of one `HW` session: the register window contents, the
board parameters read at construction, the capture-mode mirror
`_store_raw_data`, the LED animation counters, and the lifecycle flags
(`rMapped`/`dMapped` say whether `self.r`/`self.d` still hold the mapped
arrays or have been set to `None` by `close`). -/
@[ext]
structure HWState where
  regs : Nat → Nat
  num_mics : Nat
  num_chans : Nat
  num_taps : Nat
  mic_freq_hz : Nat
  store_raw_data : Bool
  idle_num : Int
  previous_idle_num : Int
  rec_blink_value : Nat
  rec_blink_state : Bool
  rMapped : Bool
  dMapped : Bool
  closed : Bool

/-- Result of running one method: either a value, or the Python exception it
raises; in both cases the session state at return/raise time is kept (a
raised exception does not roll back mutations already performed). -/
inductive Res (α : Type) where
  | ok (v : α) (s : HWState)
  | exn (e : PyErr) (s : HWState)

/-- The session state after the call, whether it returned or raised. -/
def Res.state {α : Type} : Res α → HWState
  | .ok _ s => s
  | .exn _ s => s

/-- The exception raised by the call, if any. -/
def Res.errOf {α : Type} : Res α → Option PyErr
  | .ok _ _ => none
  | .exn e _ => some e

/-- Modelled from the spec: `volatile.py` (the `VolatileU32Array` class) is
not among the sources; per spec section 4.2 it gives `read(index) -> u32`
over the mapped register window, every access an actual transaction.
Subscripting `self.r` after `close` has set it to `None` raises `TypeError`. -/
def regRead (s : HWState) (i : Nat) : Res Nat :=
  if s.rMapped then .ok (s.regs i) s else .exn .typeErrorNone s

/-- Modelled from the spec: `write(index, value)` of `VolatileU32Array`
(spec section 4.2); cells are 32-bit, so a stored value is reduced mod 2^32.
Subscripting `self.r` after `close` raises `TypeError`. -/
def regWrite (s : HWState) (i v : Nat) : Res Unit :=
  if s.rMapped then
    .ok () { s with regs := fun j => if j = i then v % 2 ^ 32 else s.regs j }
  else .exn .typeErrorNone s

/-- The liveness-check permutation in `HW.__init__`:
`((val + 0x1234) * 3) & 0xFFFF_FFFF`. -/
def liveness_transform (v : Nat) : Nat := ((v + 0x1234) * 3) % 2 ^ 32

/-- The constructor-time checks of `HW.__init__`, with the bus behaviour
injected: `canOpen` says whether `/dev/mem` can be opened and mapped (the
`except PermissionError: ... raise` path re-raises `PermissionError`),
`reg0` is the initial value read from register 0, and `readback written`
is what register 0 reads back after `written` was stored (a healthy bus
returns `written` itself).  Returns the value left in register 0. -/
def hw_init_check (canOpen : Bool) (reg0 : Nat) (readback : Nat → Nat) :
    Except PyErr Nat :=
  if canOpen then
    let val := liveness_transform reg0
    if readback val ≠ val then .error .valueErrorBusNotResponding
    else .ok val
  else .error .permissionError

/-- The spin loop `while (status := self.r[2]) & 1: pass` of
`HW.swap_buffers`, over an explicit trace of successive reads of register 2:
it exits with the first status whose busy bit (bit 0) is clear, and does not
terminate (`none`) on a trace that never clears it. -/
def spinStatus : List Nat → Option Nat
  | [] => none
  | st :: rest => if st % 2 = 1 then spinStatus rest else some st

/-- The read trace register 2 produces under the hardware model: after a swap
request, some number of busy reads (bit 0 set), then the completed status
whose bit 1 is the new which-half value and whose busy bit is clear. -/
def hwTrace (busyReads : Nat) (newWhich : Nat) : List Nat :=
  List.replicate busyReads (2 * newWhich + 1) ++ [2 * newWhich]

/-- `HW.swap_buffers` over an explicit status-read trace plus the value of
register 3: spin until the busy bit clears, then decode bit 1 of that final
status as the ready half and return register 3 as the byte offset. -/
def swap_buffers_trace (reads : List Nat) (r3 : Nat) : Option (Nat × Nat) :=
  match spinStatus reads with
  | none => none
  | some status => some ((status >>> 1) &&& 1, r3)

/-- `HW.swap_buffers` as a state transition under the hardware model in which
each completed swap flips the which-half bit (bit 1) of register 2 and
leaves the busy bit (bit 0) clear.  `self.r[2] = 1` requests the swap; the
spin loop then exits reading the completed status, whose bit 1 is the half
that was just swapped out (the flip of the previous which-half), and the
last-write byte offset is read from register 3. -/
def swap_buffers (s : HWState) : Res (Nat × Nat) :=
  if s.rMapped then
    -- `self.r[2] = 1` requests the swap (raising `TypeError` instead when
    -- `self.r` is `None`); the written 1 is a request strobe, immediately
    -- superseded in register 2 by the hardware: the completed status has
    -- bit 1 flipped with respect to the previous which-half and bit 0
    -- (busy) clear, and the spin loop exits reading exactly that status.
    let w := (s.regs 2 >>> 1) % 2
    let status := 2 * ((w + 1) % 2)
    let s2 := { s with regs := fun j => if j = 2 then status else s.regs j }
    let which := (status >>> 1) &&& 1
    .ok (which, s2.regs 3) s2
  else .exn .typeErrorNone s

/-- Row-chunking underlying numpy `reshape(-1, dim)`: split a flat list into
consecutive rows of `dim` entries. -/
def chunkRows (dim : Nat) (l : List Int) : List (List Int) :=
  if h : dim = 0 ∨ l = [] then []
  else l.take dim :: chunkRows dim (l.drop dim)
termination_by l.length
decreasing_by
  push_neg at h
  have h1 : 0 < l.length := List.length_pos.mpr h.2
  have h2 : dim ≠ 0 := h.1
  simp only [List.length_drop]
  omega

/-- numpy `reshape(-1, dim)`: rows of width `dim`; numpy raises `ValueError`
when `dim` is zero or does not divide the flat length. -/
def npReshapeRows (l : List Int) (dim : Nat) : Option (List (List Int)) :=
  if dim ≠ 0 ∧ l.length % dim = 0 then some (chunkRows dim l) else none

/-- `HW.get_data`: swap buffers, halve the byte offset into a word count,
then view that many samples of the ready half (`d which`, passed in as the
contents of the two buffer halves) reshaped into rows of `num_mics` width in
raw mode and `num_chans` width in processed mode. -/
def get_data (s : HWState) (d : Nat → List Int) : Res (List (List Int)) :=
  match swap_buffers s with
  | .exn e st => .exn e st
  | .ok (which_buf, buf_pos) s1 =>
    if s1.dMapped then
      let words := buf_pos >>> 1
      let dim := if s1.store_raw_data then s1.num_mics else s1.num_chans
      let flat := (d which_buf).take words
      match npReshapeRows flat dim with
      | some m => .ok m s1
      | none => .exn .valueErrorReshape s1
    else .exn .typeErrorNone s1

/-- `HW.set_gain`: an integer gain in 1..256 stores `gain - 1` in register 4;
anything else raises `ValueError` before touching any register. -/
def set_gain (s : HWState) (gain : Int) : Res Unit :=
  if gain < 1 ∨ gain > 256 then .exn .valueErrorGainRange s
  else regWrite s 4 (gain - 1).toNat

/-- `HW.set_store_raw_data`: update the `_store_raw_data` mirror, then write
the mode bit to register 10; when `wait` is set, sleep
`(1 / mic_freq_hz) * (num_taps + 10)` seconds and perform one buffer swap to
discard the transitional data.  The returned value records the slept
duration (if any) and how many `swap_buffers` calls were made. -/
def set_store_raw_data (s : HWState) (store_raw_data wait : Bool) :
    Res (Option ℚ × Nat) :=
  let s1 := { s with store_raw_data := store_raw_data }
  match regWrite s1 10 (if store_raw_data then 1 else 0) with
  | .exn e st => .exn e st
  | .ok _ s2 =>
    if wait then
      let slept : ℚ := (1 / (s2.mic_freq_hz : ℚ)) * ((s2.num_taps : ℚ) + 10)
      match swap_buffers s2 with
      | .exn e st => .exn e st
      | .ok _ s3 => .ok (some slept, 1) s3
    else .ok (none, 0) s2

/-- Python list subscripting `l[i]`: indices `0 ≤ i < n` read entry `i`,
negative indices `-n ≤ i < 0` wrap to entry `n + i`, everything else raises
`IndexError`. -/
def pyIndex (l : List Nat) (i : Int) : Option Nat :=
  if 0 ≤ i ∧ i < (l.length : Int) then some (l.getD i.toNat 0)
  else if -(l.length : Int) ≤ i ∧ i < 0 then
    some (l.getD (i + (l.length : Int)).toNat 0)
  else none

/-- `HW.LED_off`: `self.r[11] &= ~(0xFF << 5)` — clear the 8-bit LED field
(bits 5..12) of register 11; on a 32-bit cell the complement of the mask is
`0xFFFFFFFF ^^^ (0xFF <<< 5)`. -/
def LED_off (s : HWState) : Res Unit :=
  match regRead s 11 with
  | .exn e st => .exn e st
  | .ok v s1 => regWrite s1 11 (v &&& (0xFFFFFFFF ^^^ (0xFF <<< 5)))

/-- `HW.LED_on`: `self.r[11] |= (0xFF << 5)` — set all of the LED field. -/
def LED_on (s : HWState) : Res Unit :=
  match regRead s 11 with
  | .exn e st => .exn e st
  | .ok v s1 => regWrite s1 11 (v ||| (0xFF <<< 5))

/-- `self.r[11] |= (pat << 5)`: OR a pattern into the LED field. -/
def ledFieldOr (s : HWState) (pat : Nat) : Res Unit :=
  match regRead s 11 with
  | .exn e st => .exn e st
  | .ok v s1 => regWrite s1 11 (v ||| (pat <<< 5))

/-- The `values_list` of `HW.LED_idle`. -/
def ledIdleTable : List Nat :=
  [0x80, 0x80, 0x40, 0x40, 0x20, 0x20, 0x10, 0x10,
   0x08, 0x08, 0x04, 0x04, 0x02, 0x02, 0x01, 0x01]

/-- The counter update of `HW.LED_idle` on `(idle_num, previous_idle_num)`:
moving up, record the old position and step to `idle_num + 1`, bouncing
`16 ↦ 14`; otherwise step to `idle_num - 1`, bouncing `-1 ↦ 1`. -/
def ledIdleStep (q : Int × Int) : Int × Int :=
  if q.1 > q.2 then
    (if q.1 + 1 = 16 then 14 else q.1 + 1, q.1)
  else
    (if q.1 - 1 = -1 then 1 else q.1 - 1, q.1)

/-- `HW.LED_idle`: clear the LED field, render `values_list[idle_num]`, then
advance the bouncing counter pair. -/
def LED_idle (s : HWState) : Res Unit :=
  match LED_off s with
  | .exn e st => .exn e st
  | .ok _ s1 =>
    match pyIndex ledIdleTable s1.idle_num with
    | none => .exn .indexError s1
    | some pat =>
      match ledFieldOr s1 pat with
      | .exn e st => .exn e st
      | .ok _ s2 =>
        let q := ledIdleStep (s2.idle_num, s2.previous_idle_num)
        .ok () { s2 with idle_num := q.1, previous_idle_num := q.2 }

/-- The idle-counter value rendered by the k-th `LED_idle` call, starting
from the constructor state `idle_num = 0`, `previous_idle_num = -1`. -/
def idleSeq (k : Nat) : Int := (ledIdleStep^[k] (0, -1)).1

/-- Invariant of the idle counter pair: on the way up the previous value is
one below, on the way down one above, plus the initial sentinel state. -/
def IdleInv (q : Int × Int) : Prop :=
  (1 ≤ q.1 ∧ q.1 ≤ 15 ∧ q.2 = q.1 - 1) ∨
  (0 ≤ q.1 ∧ q.1 ≤ 14 ∧ q.2 = q.1 + 1) ∨
  (q.1 = 0 ∧ q.2 = -1)

/-- The `values_list` of `HW.button_press_indicate`. -/
def bpiTable : List Nat :=
  [0x00, 0x80, 0xC0, 0xE0, 0xF0, 0xF8, 0xFC, 0xFE, 0xFF]

/-- The `values_list` of `HW.button_press_indicate_r`. -/
def bpiRTable : List Nat :=
  [0xFF, 0xFE, 0xFC, 0xF8, 0xF0, 0xE0, 0xC0, 0x80, 0x00]

/-- `HW.button_press_indicate`: clear the LED field, then render
`values_list[number]` (Python list indexing, so negative indices wrap). -/
def button_press_indicate (s : HWState) (number : Int) : Res Unit :=
  match LED_off s with
  | .exn e st => .exn e st
  | .ok _ s1 =>
    match pyIndex bpiTable number with
    | none => .exn .indexError s1
    | some pat => ledFieldOr s1 pat

/-- `HW.button_press_indicate_r`: same with the descending table. -/
def button_press_indicate_r (s : HWState) (number : Int) : Res Unit :=
  match LED_off s with
  | .exn e st => .exn e st
  | .ok _ s1 =>
    match pyIndex bpiRTable number with
    | none => .exn .indexError s1
    | some pat => ledFieldOr s1 pat

/-- `HW.get_button_state`: bit 0 of register 11. -/
def get_button_state (s : HWState) : Res Bool :=
  match regRead s 11 with
  | .exn e st => .exn e st
  | .ok v s1 => .ok ((v &&& 1) == 1) s1

/-- `HW.LED_recording`: while the button is held, leave the LEDs untouched;
otherwise every fifth call toggles the LED field fully on or off, with the
call counter cycling 0..99. -/
def LED_recording (s : HWState) : Res Unit :=
  match get_button_state s with
  | .exn e st => .exn e st
  | .ok pressed s1 =>
    if pressed then .ok () s1
    else
      match
        (if s1.rec_blink_value % 5 = 0 then
          (if s1.rec_blink_state then
            match LED_on s1 with
            | .exn e st => Res.exn e st
            | .ok _ t => Res.ok () { t with rec_blink_state := false }
          else
            match LED_off s1 with
            | .exn e st => Res.exn e st
            | .ok _ t => Res.ok () { t with rec_blink_state := true })
        else Res.ok () s1) with
      | .exn e st => .exn e st
      | .ok _ s2 =>
        let v := s2.rec_blink_value + 1
        .ok () { s2 with rec_blink_value := if v = 100 then 0 else v }

/-- `HW.close`: raise the bare `ValueError` on a second call, otherwise set
`self.d` and `self.r` to `None`, close both mappings and descriptors, and
mark the session closed. -/
def close (s : HWState) : Res Unit :=
  if s.closed then .exn .valueErrorBare s
  else .ok () { s with rMapped := false, dMapped := false, closed := true }

/-- Reversal of the 8 bits of a byte. -/
def bitrev8 (v : Nat) : Nat :=
  (List.range 8).foldl
    (fun acc i => acc ||| (if v.testBit i then 1 <<< (7 - i) else 0)) 0

/-- The 8-bit LED field (bits 5..12) of register 11. -/
def ledField (s : HWState) : Nat := (s.regs 11 >>> 5) &&& 0xFF

/-- The LED field after a call, when the call returned normally. -/
def resLedField {α : Type} : Res α → Option Nat
  | .ok _ s => some (ledField s)
  | .exn _ _ => none

/-- Everything of register 11 outside the LED field (bits 5..12) is
untouched: the low five bits (button bit 0, gain-switch bits 1..4) and all
bits from 13 up (off-button bit 13 included) agree. -/
def reg11FrameOk (v v1 : Nat) : Prop :=
  v1 % 2 ^ 5 = v % 2 ^ 5 ∧ v1 >>> 13 = v >>> 13

/-- A concrete freshly-constructed session used to instantiate theorems:
4 mics, 2 channels, 32 taps, 48 kHz, raw mode, register 3 holding byte
offset 800 and register 11 holding button, gain-switch and off-button bits
(0x2003 = bits 0, 1 and 13). -/
def testState : HWState where
  regs := fun i => if i = 3 then 800 else if i = 11 then 0x2003 else 0
  num_mics := 4
  num_chans := 2
  num_taps := 32
  mic_freq_hz := 48000
  store_raw_data := true
  idle_num := 0
  previous_idle_num := -1
  rec_blink_value := 0
  rec_blink_state := true
  rMapped := true
  dMapped := true
  closed := false

/-- `testState` switched to processed mode. -/
def testStateProcessed : HWState := { testState with store_raw_data := false }

/-- The session state after closing `testState` once. -/
def closedState : HWState := (close testState).state

/-! ## Helper lemmas -/

/-- Decoding bit 1 of a status of the form `2 * x`. -/
theorem two_mul_decode (x : Nat) : ((2 * x) >>> 1) &&& 1 = x % 2 := by
  rw [Nat.shiftRight_eq_div_pow, pow_one, Nat.mul_div_cancel_left _ two_pos,
    Nat.and_one_is_mod]

/-- Under the hardware model, `swap_buffers` on a live session returns the
flipped which-half bit together with register 3, and updates register 2 to
the completed status. -/
theorem swap_buffers_eq (s : HWState) (hm : s.rMapped = true) :
    swap_buffers s = Res.ok (((s.regs 2 >>> 1) % 2 + 1) % 2, s.regs 3)
      { s with regs := fun j => if j = 2 then
          2 * (((s.regs 2 >>> 1) % 2 + 1) % 2) else s.regs j } := by
  have hmm : (((s.regs 2 >>> 1) % 2 + 1) % 2) % 2 =
      ((s.regs 2 >>> 1) % 2 + 1) % 2 := by omega
  simp only [swap_buffers, hm, if_true, two_mul_decode, hmm]
  norm_num

/-- The spin loop exits only on a clear busy bit. -/
theorem spinStatus_busy_clear :
    ∀ (reads : List Nat) (st : Nat), spinStatus reads = some st → st % 2 = 0 := by
  intro reads
  induction reads with
  | nil => intro st h; simp [spinStatus] at h
  | cons a rest ih =>
    intro st h
    by_cases ha : a % 2 = 1
    · rw [spinStatus, if_pos ha] at h
      exact ih st h
    · rw [spinStatus, if_neg ha] at h
      cases h
      omega

/-- On a hardware trace the spin loop exits with the completed status. -/
theorem spinStatus_hwTrace (n w : Nat) : spinStatus (hwTrace n w) = some (2 * w) := by
  induction n with
  | zero =>
    have h0 : ¬ (2 * w) % 2 = 1 := by omega
    simp [hwTrace, spinStatus, h0]
  | succ n ih =>
    have h1 : (2 * w + 1) % 2 = 1 := by omega
    simp only [hwTrace, List.replicate_succ, List.cons_append, spinStatus,
      if_pos h1] at ih ⊢
    exact ih

/-- Splitting a list whose length is `dim * n` into rows: there are `n` rows,
each of width `dim`, and concatenating them gives the list back. -/
theorem chunkRows_spec (dim : Nat) (hd : 0 < dim) :
    ∀ (n : Nat) (l : List Int), l.length = dim * n →
      (chunkRows dim l).length = n ∧
      (∀ r ∈ chunkRows dim l, r.length = dim) ∧
      (chunkRows dim l).flatten = l := by
  intro n
  induction n with
  | zero =>
    intro l hl
    have hnil : l = [] := List.length_eq_zero.mp (by omega)
    subst hnil
    rw [chunkRows]
    simp
  | succ n ih =>
    intro l hl
    rw [Nat.mul_succ] at hl
    have hne : l ≠ [] := by
      intro hcontra
      subst hcontra
      simp at hl
      omega
    have hcond : ¬ (dim = 0 ∨ l = []) := by
      push_neg
      exact ⟨by omega, hne⟩
    rw [chunkRows, dif_neg hcond]
    have hdl : (l.drop dim).length = dim * n := by
      simp only [List.length_drop]
      omega
    obtain ⟨ih1, ih2, ih3⟩ := ih (l.drop dim) hdl
    have htake : (l.take dim).length = dim := by
      rw [List.length_take]
      omega
    refine ⟨?_, ?_, ?_⟩
    · simp [ih1]
    · intro r hr
      rcases List.mem_cons.mp hr with h | h
      · rw [h]; exact htake
      · exact ih2 r h
    · simp only [List.flatten_cons, ih3, List.take_append_drop]

/-- The mirror-then-register prefix of `set_store_raw_data` on a live
session. -/
theorem set_store_raw_mirror (s : HWState) (b : Bool) (hm : s.rMapped = true) :
    regWrite { s with store_raw_data := b } 10 (if b then 1 else 0) =
      Res.ok () { s with store_raw_data := b,
                         regs := (fun j =>
                           if j = 10 then (if b then 1 else 0) % 2 ^ 32
                           else s.regs j) } := by
  simp [regWrite, hm]

/-- `LED_off` on a live session clears bits 5..12 of register 11. -/
theorem LED_off_eq (s : HWState) (hm : s.rMapped = true) :
    LED_off s = Res.ok () { s with regs := (fun j =>
      if j = 11 then (s.regs 11 &&& (0xFFFFFFFF ^^^ (0xFF <<< 5))) % 2 ^ 32
      else s.regs j) } := by
  simp [LED_off, regRead, regWrite, hm]

/-- `LED_on` on a live session sets bits 5..12 of register 11. -/
theorem LED_on_eq (s : HWState) (hm : s.rMapped = true) :
    LED_on s = Res.ok () { s with regs := (fun j =>
      if j = 11 then (s.regs 11 ||| (0xFF <<< 5)) % 2 ^ 32
      else s.regs j) } := by
  simp [LED_on, regRead, regWrite, hm]

/-- `ledFieldOr` on a live session ORs the shifted pattern into register 11. -/
theorem ledFieldOr_eq (s : HWState) (pat : Nat) (hm : s.rMapped = true) :
    ledFieldOr s pat = Res.ok () { s with regs := (fun j =>
      if j = 11 then (s.regs 11 ||| (pat <<< 5)) % 2 ^ 32
      else s.regs j) } := by
  simp [ledFieldOr, regRead, regWrite, hm]

/-- The cleared LED-field value fits in 32 bits. -/
theorem and_mask_lt (v : Nat) :
    v &&& (0xFFFFFFFF ^^^ (0xFF <<< 5)) < 2 ^ 32 :=
  lt_of_le_of_lt Nat.and_le_right (by decide)

/-- ORing a byte pattern into the LED field stays within 32 bits. -/
theorem or_pat_lt (v w : Nat) (hv : v < 2 ^ 32) (hw : w < 256) :
    (v ||| (w <<< 5)) < 2 ^ 32 := by
  apply Nat.or_lt_two_pow hv
  have h1 : w <<< 5 = w * 32 := by
    rw [Nat.shiftLeft_eq]
  rw [h1]
  omega

/-- `LED_off`, with the 32-bit reduction discharged (the cleared value
always fits). -/
theorem LED_off_eq' (s : HWState) (hm : s.rMapped = true) :
    LED_off s = Res.ok () { s with regs := (fun j =>
      if j = 11 then s.regs 11 &&& (0xFFFFFFFF ^^^ (0xFF <<< 5))
      else s.regs j) } := by
  rw [LED_off_eq s hm]
  congr 1
  refine HWState.ext ?_ rfl rfl rfl rfl rfl rfl rfl rfl rfl rfl rfl rfl
  funext j
  dsimp only
  by_cases hj : j = 11
  · rw [if_pos hj, if_pos hj]
    exact Nat.mod_eq_of_lt (and_mask_lt _)
  · rw [if_neg hj, if_neg hj]

/-- `LED_on` on a 32-bit register value, with the reduction discharged. -/
theorem LED_on_eq' (s : HWState) (hm : s.rMapped = true)
    (hv : s.regs 11 < 2 ^ 32) :
    LED_on s = Res.ok () { s with regs := (fun j =>
      if j = 11 then s.regs 11 ||| (0xFF <<< 5) else s.regs j) } := by
  rw [LED_on_eq s hm]
  congr 1
  refine HWState.ext ?_ rfl rfl rfl rfl rfl rfl rfl rfl rfl rfl rfl rfl
  funext j
  dsimp only
  by_cases hj : j = 11
  · rw [if_pos hj, if_pos hj]
    exact Nat.mod_eq_of_lt (or_pat_lt _ _ hv (by norm_num))
  · rw [if_neg hj, if_neg hj]

/-- `ledFieldOr` with a byte pattern on a 32-bit register value, with the
reduction discharged. -/
theorem ledFieldOr_eq' (s : HWState) (pat : Nat) (hm : s.rMapped = true)
    (hv : s.regs 11 < 2 ^ 32) (hpat : pat < 256) :
    ledFieldOr s pat = Res.ok () { s with regs := (fun j =>
      if j = 11 then s.regs 11 ||| (pat <<< 5) else s.regs j) } := by
  rw [ledFieldOr_eq s pat hm]
  congr 1
  refine HWState.ext ?_ rfl rfl rfl rfl rfl rfl rfl rfl rfl rfl rfl rfl
  funext j
  dsimp only
  by_cases hj : j = 11
  · rw [if_pos hj, if_pos hj]
    exact Nat.mod_eq_of_lt (or_pat_lt _ _ hv hpat)
  · rw [if_neg hj, if_neg hj]

/-- `getD` with default 0 stays below any bound that holds for all entries. -/
theorem getD_lt : ∀ (l : List Nat) (c : Nat), (∀ x ∈ l, x < c) → 0 < c →
    ∀ k, l.getD k 0 < c
  | [], _, _, hc, _ => by simpa [List.getD] using hc
  | a :: t, _, hl, _, 0 => by simpa [List.getD] using hl a (List.mem_cons_self a t)
  | a :: t, c, hl, hc, (k + 1) => by
    simpa [List.getD] using
      getD_lt t c (fun x hx => hl x (List.mem_cons_of_mem a hx)) hc k

/-- A Python in-range subscript. -/
theorem pyIndex_in_range (l : List Nat) (i : Int) (h0 : 0 ≤ i)
    (hl : i < (l.length : Int)) :
    pyIndex l i = some (l.getD i.toNat 0) := by
  rw [pyIndex, if_pos ⟨h0, hl⟩]

/-- A Python negative (wrapping) subscript. -/
theorem pyIndex_neg (l : List Nat) (i : Int) (hn : -(l.length : Int) ≤ i)
    (hi : i < 0) :
    pyIndex l i = some (l.getD (i + (l.length : Int)).toNat 0) := by
  rw [pyIndex, if_neg (by omega), if_pos ⟨hn, hi⟩]

/-- A Python out-of-range subscript raises IndexError. -/
theorem pyIndex_oob (l : List Nat) (i : Int)
    (h : i < -(l.length : Int) ∨ (l.length : Int) ≤ i) :
    pyIndex l i = none := by
  rw [pyIndex, if_neg (by omega), if_neg (by omega)]

/-- Every successful Python subscript of a bounded table is bounded. -/
theorem pyIndex_lt (l : List Nat) (c : Nat) (hl : ∀ x ∈ l, x < c) (hc : 0 < c)
    (i : Int) (pat : Nat) (h : pyIndex l i = some pat) : pat < c := by
  rw [pyIndex] at h
  split_ifs at h
  · cases h
    exact getD_lt l c hl hc _
  · cases h
    exact getD_lt l c hl hc _

theorem ledIdleTable_bound : ∀ x ∈ ledIdleTable, x < 256 := by decide

theorem bpiTable_bound : ∀ x ∈ bpiTable, x < 256 := by decide

theorem bpiRTable_bound : ∀ x ∈ bpiRTable, x < 256 := by decide

/-- Clearing the LED field leaves every bit outside 5..12 unchanged. -/
theorem testBit_and_mask (v b : Nat) (hv : v < 2 ^ 32) (hb : b < 5 ∨ 13 ≤ b) :
    (v &&& (0xFFFFFFFF ^^^ (0xFF <<< 5))).testBit b = v.testBit b := by
  rw [Nat.testBit_and]
  by_cases hvb : v.testBit b = true
  · have hblt : b < 32 := by
      by_contra hge
      push_neg at hge
      have hlt : v < 2 ^ b := lt_of_lt_of_le hv
        (Nat.pow_le_pow_right (by norm_num) hge)
      rw [Nat.testBit_lt_two_pow hlt] at hvb
      exact Bool.false_ne_true hvb
    have hmask : (0xFFFFFFFF ^^^ (0xFF <<< 5)).testBit b = true := by
      interval_cases b <;> first | decide | (exact absurd hb (by decide))
    rw [hvb, hmask]
    rfl
  · rw [Bool.not_eq_true] at hvb
    rw [hvb]
    rfl

/-- ORing a byte pattern into the LED field leaves every bit outside 5..12
unchanged. -/
theorem testBit_or_pat (v w b : Nat) (hw : w < 256) (hb : b < 5 ∨ 13 ≤ b) :
    (v ||| (w <<< 5)).testBit b = v.testBit b := by
  rw [Nat.testBit_or]
  have hsh : (w <<< 5).testBit b = false := by
    rw [Nat.testBit_shiftLeft]
    rcases hb with h | h
    · have h5 : ¬ (5 ≤ b) := by omega
      simp [h5]
    · have h8 : 8 ≤ b - 5 := by omega
      have hwlt : w < 2 ^ (b - 5) := lt_of_lt_of_le hw (by
        calc (256 : Nat) = 2 ^ 8 := by norm_num
        _ ≤ 2 ^ (b - 5) := Nat.pow_le_pow_right (by norm_num) h8)
      simp [Nat.testBit_lt_two_pow hwlt]
  rw [hsh, Bool.or_false]

/-- Register 11 frame condition from bitwise agreement outside 5..12. -/
theorem frameOk_of_testBit (v v1 : Nat)
    (h : ∀ b, b < 5 ∨ 13 ≤ b → v1.testBit b = v.testBit b) :
    reg11FrameOk v v1 := by
  constructor
  · apply Nat.eq_of_testBit_eq
    intro i
    rw [Nat.testBit_mod_two_pow, Nat.testBit_mod_two_pow]
    by_cases hi : i < 5
    · simp [hi, h i (Or.inl hi)]
    · simp [hi]
  · apply Nat.eq_of_testBit_eq
    intro i
    rw [Nat.testBit_shiftRight, Nat.testBit_shiftRight]
    exact h (13 + i) (Or.inr (by omega))

theorem reg11FrameOk_refl (v : Nat) : reg11FrameOk v v := ⟨rfl, rfl⟩

theorem reg11FrameOk_trans {a c e : Nat} (h1 : reg11FrameOk a c)
    (h2 : reg11FrameOk c e) : reg11FrameOk a e :=
  ⟨h2.1.trans h1.1, h2.2.trans h1.2⟩

theorem frame_and_mask (v : Nat) (hv : v < 2 ^ 32) :
    reg11FrameOk v (v &&& (0xFFFFFFFF ^^^ (0xFF <<< 5))) :=
  frameOk_of_testBit _ _ (fun b hb => testBit_and_mask v b hv hb)

theorem frame_or_pat (v w : Nat) (hw : w < 256) :
    reg11FrameOk v (v ||| (w <<< 5)) :=
  frameOk_of_testBit _ _ (fun b hb => testBit_or_pat v w b hw hb)

/-- After clearing the LED field and ORing in a byte pattern, the LED field
reads back exactly that pattern. -/
theorem ledField_after_set (v w : Nat) (hw : w < 256) :
    ((((v &&& (0xFFFFFFFF ^^^ (0xFF <<< 5))) ||| (w <<< 5)) >>> 5) &&& 0xFF)
      = w := by
  apply Nat.eq_of_testBit_eq
  intro i
  rw [Nat.testBit_and, Nat.testBit_shiftRight, Nat.testBit_or, Nat.testBit_and,
    Nat.testBit_shiftLeft]
  by_cases hi : i < 8
  · have hff : (0xFF : Nat).testBit i = true := by
      interval_cases i <;> decide
    have hmaskbit : (0xFFFFFFFF ^^^ (0xFF <<< 5)).testBit (5 + i) = false := by
      interval_cases i <;> decide
    have hsub : 5 + i - 5 = i := by omega
    rw [hmaskbit, hsub, hff]
    have h5 : 5 ≤ 5 + i := by omega
    simp [h5]
  · have h256 : (256 : Nat) ≤ 2 ^ i := by
      calc (256 : Nat) = 2 ^ 8 := by norm_num
      _ ≤ 2 ^ i := Nat.pow_le_pow_right (by norm_num) (by omega)
    have hff : (0xFF : Nat).testBit i = false :=
      Nat.testBit_lt_two_pow (lt_of_lt_of_le (by norm_num) h256)
    have hwi : w.testBit i = false :=
      Nat.testBit_lt_two_pow (lt_of_lt_of_le hw h256)
    rw [hff, hwi]
    simp

/-- One `LED_idle` step preserves the idle-counter invariant. -/
theorem idleInv_step (q : Int × Int) (h : IdleInv q) : IdleInv (ledIdleStep q) := by
  obtain ⟨i, p⟩ := q
  unfold IdleInv at h ⊢
  unfold ledIdleStep
  dsimp only at h ⊢
  split_ifs <;> dsimp only <;> omega

/-- The idle-counter invariant holds at every iterate from the start state. -/
theorem idleInv_iter (k : Nat) : IdleInv (ledIdleStep^[k] (0, -1)) := by
  induction k with
  | zero => exact Or.inr (Or.inr ⟨rfl, rfl⟩)
  | succ k ih =>
    rw [Function.iterate_succ_apply']
    exact idleInv_step _ ih

/-- The rendered idle counter is always inside [0, 16). -/
theorem idleSeq_bounds_lemma (k : Nat) : 0 ≤ idleSeq k ∧ idleSeq k < 16 := by
  have h := idleInv_iter k
  unfold IdleInv at h
  unfold idleSeq
  rcases h with ⟨h1, h2, _⟩ | ⟨h1, h2, _⟩ | ⟨h1, h2⟩ <;> exact ⟨by omega, by omega⟩

set_option maxRecDepth 4000 in
/-- After the transient start state, the counter pair is periodic with
period 30. -/
theorem ledIdleStep_iter31 :
    ledIdleStep^[31] (0, -1) = ledIdleStep^[1] (0, -1) := by decide

theorem idleSeq_periodic_lemma (k : Nat) : idleSeq (k + 31) = idleSeq (k + 1) := by
  unfold idleSeq
  rw [Function.iterate_add_apply, Function.iterate_add_apply ledIdleStep k 1,
    ledIdleStep_iter31]

/-- `LED_idle` on a live session with the counter in range returns normally
and advances the counter pair exactly by `ledIdleStep`. -/
theorem LED_idle_counters (s : HWState) (hm : s.rMapped = true)
    (h0 : 0 ≤ s.idle_num) (h15 : s.idle_num ≤ 15) :
    ∃ s1, LED_idle s = Res.ok () s1 ∧
      (s1.idle_num, s1.previous_idle_num) =
        ledIdleStep (s.idle_num, s.previous_idle_num) := by
  have hoff := LED_off_eq s hm
  set sOff : HWState := { s with regs := (fun j =>
    if j = 11 then (s.regs 11 &&& (0xFFFFFFFF ^^^ (0xFF <<< 5))) % 2 ^ 32
    else s.regs j) } with hsOff
  have hmOff : sOff.rMapped = true := by rw [hsOff]; exact hm
  have hiOff : sOff.idle_num = s.idle_num := by rw [hsOff]
  have hpy : pyIndex ledIdleTable sOff.idle_num =
      some (ledIdleTable.getD sOff.idle_num.toNat 0) := by
    apply pyIndex_in_range
    · rw [hiOff]; exact h0
    · rw [hiOff]
      have hlen : ((ledIdleTable.length : Int)) = 16 := by decide
      omega
  have hor := ledFieldOr_eq sOff (ledIdleTable.getD sOff.idle_num.toNat 0) hmOff
  set sOr : HWState := { sOff with regs := (fun j =>
    if j = 11 then (sOff.regs 11 |||
      ((ledIdleTable.getD sOff.idle_num.toNat 0) <<< 5)) % 2 ^ 32
    else sOff.regs j) } with hsOr
  have hiOr : sOr.idle_num = s.idle_num := by rw [hsOr, hsOff]
  have hpOr : sOr.previous_idle_num = s.previous_idle_num := by rw [hsOr, hsOff]
  refine ⟨{ sOr with
      idle_num := (ledIdleStep (sOr.idle_num, sOr.previous_idle_num)).1,
      previous_idle_num :=
        (ledIdleStep (sOr.idle_num, sOr.previous_idle_num)).2 }, ?_, ?_⟩
  · simp only [LED_idle, hoff, hpy, hor]
  · simp only [Prod.mk.eta, hiOr, hpOr]

/-- C7: starting from the constructor state (counter 0, previous -1), the
idle counter rendered by successive `LED_idle` calls increases strictly
0..15, re-enters at 14 after 15 (never repeating 15 or reaching 16),
descends to 0, re-enters at 1 after 0 (never repeating 0 or reaching -1,
period 30 from the second call on), and stays inside [0, 16) after every
call; each call on a live session advances the counter pair exactly by
`ledIdleStep`. -/
theorem C7_led_idle_bounce (s : HWState) (hm : s.rMapped = true)
    (h0 : 0 ≤ s.idle_num) (h15 : s.idle_num ≤ 15) :
    (∃ s1, LED_idle s = Res.ok () s1 ∧
      (s1.idle_num, s1.previous_idle_num) =
        ledIdleStep (s.idle_num, s.previous_idle_num)) ∧
    (∀ k, k ≤ 15 → idleSeq k = (k : Int)) ∧
    (∀ k, 16 ≤ k → k ≤ 30 → idleSeq k = ((30 - k : Nat) : Int)) ∧
    idleSeq 16 = 14 ∧ idleSeq 31 = 1 ∧
    (∀ k, idleSeq (k + 31) = idleSeq (k + 1)) ∧
    (∀ k, 0 ≤ idleSeq k ∧ idleSeq k < 16) := by
  refine ⟨LED_idle_counters s hm h0 h15, ?_, ?_, by decide, by decide,
    idleSeq_periodic_lemma, idleSeq_bounds_lemma⟩
  · intro k hk
    interval_cases k <;> decide
  · intro k hk1 hk2
    interval_cases k <;> decide

/-- C7 witness: one `LED_idle` call on the freshly-constructed `testState`. -/
theorem C7_led_idle_bounce_witness :
    ∃ s1, LED_idle testState = Res.ok () s1 ∧
      (s1.idle_num, s1.previous_idle_num) =
        ledIdleStep (testState.idle_num, testState.previous_idle_num) :=
  (C7_led_idle_bounce testState rfl (by decide) (by decide)).1

/-- `button_press_indicate` renders any pattern that its table lookup
produces. -/
theorem bpi_render_core (s : HWState) (hm : s.rMapped = true) (i : Int)
    (pat : Nat) (hpat : pat < 256) (hpy2 : pyIndex bpiTable i = some pat) :
    resLedField (button_press_indicate s i) = some pat := by
  have hoff := LED_off_eq' s hm
  set sOff : HWState := { s with regs := (fun j =>
    if j = 11 then s.regs 11 &&& (0xFFFFFFFF ^^^ (0xFF <<< 5))
    else s.regs j) } with hsOff
  have hmOff : sOff.rMapped = true := by rw [hsOff]; exact hm
  have hOffr : sOff.regs 11 = s.regs 11 &&& (0xFFFFFFFF ^^^ (0xFF <<< 5)) := by
    rw [hsOff]
    dsimp only
    rw [if_pos rfl]
  have hvOff : sOff.regs 11 < 2 ^ 32 := by rw [hOffr]; exact and_mask_lt _
  have hor := ledFieldOr_eq' sOff pat hmOff hvOff hpat
  simp only [button_press_indicate, hoff, hpy2, hor, resLedField]
  congr 1
  unfold ledField
  show ((sOff.regs 11 ||| (pat <<< 5)) >>> 5) &&& 0xFF = pat
  rw [hOffr]
  exact ledField_after_set _ _ hpat

/-- `button_press_indicate_r` renders any pattern that its table lookup
produces. -/
theorem bpiR_render_core (s : HWState) (hm : s.rMapped = true) (i : Int)
    (pat : Nat) (hpat : pat < 256) (hpy2 : pyIndex bpiRTable i = some pat) :
    resLedField (button_press_indicate_r s i) = some pat := by
  have hoff := LED_off_eq' s hm
  set sOff : HWState := { s with regs := (fun j =>
    if j = 11 then s.regs 11 &&& (0xFFFFFFFF ^^^ (0xFF <<< 5))
    else s.regs j) } with hsOff
  have hmOff : sOff.rMapped = true := by rw [hsOff]; exact hm
  have hOffr : sOff.regs 11 = s.regs 11 &&& (0xFFFFFFFF ^^^ (0xFF <<< 5)) := by
    rw [hsOff]
    dsimp only
    rw [if_pos rfl]
  have hvOff : sOff.regs 11 < 2 ^ 32 := by rw [hOffr]; exact and_mask_lt _
  have hor := ledFieldOr_eq' sOff pat hmOff hvOff hpat
  simp only [button_press_indicate_r, hoff, hpy2, hor, resLedField]
  congr 1
  unfold ledField
  show ((sOff.regs 11 ||| (pat <<< 5)) >>> 5) &&& 0xFF = pat
  rw [hOffr]
  exact ledField_after_set _ _ hpat

/-- A cleared LED field reads back zero. -/
theorem ledField_after_clear (v : Nat) :
    (((v &&& (0xFFFFFFFF ^^^ (0xFF <<< 5))) >>> 5) &&& 0xFF) = 0 := by
  apply Nat.eq_of_testBit_eq
  intro i
  rw [Nat.testBit_and, Nat.testBit_shiftRight, Nat.testBit_and]
  by_cases hi : i < 8
  · have hmaskbit : (0xFFFFFFFF ^^^ (0xFF <<< 5)).testBit (5 + i) = false := by
      interval_cases i <;> decide
    rw [hmaskbit]
    simp
  · have h256 : (256 : Nat) ≤ 2 ^ i := by
      calc (256 : Nat) = 2 ^ 8 := by norm_num
      _ ≤ 2 ^ i := Nat.pow_le_pow_right (by norm_num) (by omega)
    have hff : (0xFF : Nat).testBit i = false :=
      Nat.testBit_lt_two_pow (lt_of_lt_of_le (by norm_num) h256)
    rw [hff]
    simp

/-- When the table lookup misses, `button_press_indicate` raises IndexError
with the LED field already cleared. -/
theorem bpi_oob_core (s : HWState) (hm : s.rMapped = true) (i : Int)
    (hpy2 : pyIndex bpiTable i = none) :
    (button_press_indicate s i).errOf = some PyErr.indexError ∧
    ledField ((button_press_indicate s i).state) = 0 := by
  have hoff := LED_off_eq' s hm
  set sOff : HWState := { s with regs := (fun j =>
    if j = 11 then s.regs 11 &&& (0xFFFFFFFF ^^^ (0xFF <<< 5))
    else s.regs j) } with hsOff
  have hOffr : sOff.regs 11 = s.regs 11 &&& (0xFFFFFFFF ^^^ (0xFF <<< 5)) := by
    rw [hsOff]
    dsimp only
    rw [if_pos rfl]
  constructor
  · simp only [button_press_indicate, hoff, hpy2, Res.errOf]
  · simp only [button_press_indicate, hoff, hpy2, Res.state]
    unfold ledField
    rw [hOffr]
    exact ledField_after_clear _

/-- Same for `button_press_indicate_r`. -/
theorem bpiR_oob_core (s : HWState) (hm : s.rMapped = true) (i : Int)
    (hpy2 : pyIndex bpiRTable i = none) :
    (button_press_indicate_r s i).errOf = some PyErr.indexError := by
  have hoff := LED_off_eq' s hm
  set sOff : HWState := { s with regs := (fun j =>
    if j = 11 then s.regs 11 &&& (0xFFFFFFFF ^^^ (0xFF <<< 5))
    else s.regs j) } with hsOff
  simp only [button_press_indicate_r, hoff, hpy2, Res.errOf]

/-! ## Claim theorems -/

/-- C1: `swap_buffers` writes the swap request to register 2 and returns only
after a status read whose busy bit is clear (the spin loop can only exit on
such a read); the returned which-half is bit 1 of that final status and the
returned offset is register 3; and under the hardware model in which each
completed swap flips bit 1, two consecutive calls return alternating
which-half values. -/
theorem C1_swap_buffers_protocol (s : HWState) (hm : s.rMapped = true) :
    (∀ reads st, spinStatus reads = some st → st % 2 = 0) ∧
    (∀ n w r3, swap_buffers_trace (hwTrace n w) r3 = some (w % 2, r3)) ∧
    (∃ which1 which2 s1 s2,
      swap_buffers s = Res.ok (which1, s.regs 3) s1 ∧
      swap_buffers s1 = Res.ok (which2, s.regs 3) s2 ∧
      which1 = (s1.regs 2 >>> 1) &&& 1 ∧
      s1.regs 2 % 2 = 0 ∧ s2.regs 2 % 2 = 0 ∧
      which1 ≤ 1 ∧ which2 = 1 - which1 ∧ which2 ≠ which1) := by
  refine ⟨spinStatus_busy_clear, ?_, ?_⟩
  · intro n w r3
    simp only [swap_buffers_trace, spinStatus_hwTrace, two_mul_decode]
  · have h1 := swap_buffers_eq s hm
    set w0 := (s.regs 2 >>> 1) % 2 with hw0
    set s1 : HWState := { s with regs := fun j => if j = 2 then
        2 * ((w0 + 1) % 2) else s.regs j } with hs1
    have hm1 : s1.rMapped = true := by rw [hs1]; exact hm
    have h2 := swap_buffers_eq s1 hm1
    have hr2 : s1.regs 2 = 2 * ((w0 + 1) % 2) := by simp [hs1]
    have hr3 : s1.regs 3 = s.regs 3 := by simp [hs1]
    have hb1 : (s1.regs 2 >>> 1) % 2 = (w0 + 1) % 2 := by
      rw [hr2, Nat.shiftRight_eq_div_pow, pow_one,
        Nat.mul_div_cancel_left _ two_pos]
      omega
    rw [hb1, hr3] at h2
    refine ⟨(w0 + 1) % 2, ((w0 + 1) % 2 + 1) % 2, s1, _, h1, h2, ?_, ?_, ?_, ?_, ?_, ?_⟩
    · rw [hr2, two_mul_decode]
      omega
    · rw [hr2]; omega
    · have : ({ s1 with regs := fun j => if j = 2 then
          2 * (((w0 + 1) % 2 + 1) % 2) else s1.regs j } : HWState).regs 2 =
          2 * (((w0 + 1) % 2 + 1) % 2) := by simp
      rw [this]
      omega
    · omega
    · omega
    · omega

/-- C1 witness: the protocol facts instantiated on the concrete session
`testState` and a concrete trace of two busy reads before completion. -/
theorem C1_swap_buffers_protocol_witness :
    swap_buffers_trace (hwTrace 2 1) 800 = some (1 % 2, 800) :=
  (C1_swap_buffers_protocol testState rfl).2.1 2 1 800

/-- C3: at construction, for every initial register-0 value `v`, the liveness
check writes `((v + 0x1234) * 3) mod 2^32` back to register 0 and raises
`ValueError` (BusNotResponding) exactly when the readback differs from the
written value; failure to open `/dev/mem` raises `PermissionError`
(DeviceUnavailable) instead, a distinguishable error class. -/
theorem C3_init_liveness (v : Nat) (f : Nat → Nat) :
    (f (liveness_transform v) = liveness_transform v →
      hw_init_check true v f = .ok (liveness_transform v)) ∧
    (f (liveness_transform v) ≠ liveness_transform v →
      hw_init_check true v f = .error .valueErrorBusNotResponding) ∧
    hw_init_check false v f = .error .permissionError ∧
    liveness_transform v = ((v + 0x1234) * 3) % 2 ^ 32 ∧
    PyErr.permissionError.cls ≠ PyErr.valueErrorBusNotResponding.cls := by
  refine ⟨?_, ?_, rfl, rfl, by decide⟩
  · intro h
    simp [hw_init_check, h]
  · intro h
    simp [hw_init_check, h]

/-- C3 witness: a bus whose readback matches passes the check, a bus that
loses the write fails with the bus error, and an unmappable device fails
with the permission error. -/
theorem C3_init_liveness_witness :
    hw_init_check true 5 id = .ok (liveness_transform 5) ∧
    hw_init_check true 5 (fun _ => 0) = .error .valueErrorBusNotResponding ∧
    hw_init_check false 5 id = .error .permissionError :=
  ⟨(C3_init_liveness 5 id).1 rfl,
   (C3_init_liveness 5 (fun _ => 0)).2.1 (by decide),
   (C3_init_liveness 5 id).2.2.1⟩

/-- C4: for every integer gain in 1..256, `set_gain` stores `gain - 1` in
register 4 and touches nothing else; outside that range it raises
`ValueError` (InvalidArgument) and performs no register write at all. -/
theorem C4_set_gain (s : HWState) (g : Int) (hm : s.rMapped = true) :
    (1 ≤ g → g ≤ 256 →
      ∃ s1, set_gain s g = Res.ok () s1 ∧
        ((s1.regs 4 : Int) = g - 1) ∧
        (∀ j, j ≠ 4 → s1.regs j = s.regs j)) ∧
    ((g < 1 ∨ 256 < g) →
      set_gain s g = Res.exn .valueErrorGainRange s ∧
      (set_gain s g).state = s) := by
  constructor
  · intro h1 h2
    have hno : ¬ (g < 1 ∨ g > 256) := by omega
    refine ⟨{ s with regs := (fun j =>
        if j = 4 then (g - 1).toNat % 2 ^ 32 else s.regs j) }, ?_, ?_, ?_⟩
    · simp [set_gain, hno, regWrite, hm]
    · show (((if (4 : Nat) = 4 then (g - 1).toNat % 2 ^ 32 else s.regs 4) : Nat) : Int)
        = g - 1
      rw [if_pos rfl, Nat.mod_eq_of_lt (by omega : (g - 1).toNat < 2 ^ 32)]
      omega
    · intro j hj
      simp [hj]
  · intro h
    have h2 : g < 1 ∨ g > 256 := by omega
    constructor
    · simp [set_gain, h2]
    · simp [set_gain, h2, Res.state]

/-- C2: `get_data` swaps buffers, divides the returned byte offset by the
2-byte sample width, and returns exactly that many samples of the ready
half, reshaped into rows whose width is `num_mics` in raw mode and
`num_chans` in processed mode; the row count is the sample count divided by
the row width. -/
theorem C2_get_data_shape (s : HWState) (d : Nat → List Int)
    (hm : s.rMapped = true) (hdm : s.dMapped = true)
    (hdim : 0 < (if s.store_raw_data then s.num_mics else s.num_chans))
    (hdvd : (if s.store_raw_data then s.num_mics else s.num_chans) ∣
      (s.regs 3 >>> 1))
    (hlen : ∀ w, w ≤ 1 → s.regs 3 >>> 1 ≤ (d w).length) :
    ∃ m s1, get_data s d = Res.ok m s1 ∧
      m.flatten.length = s.regs 3 >>> 1 ∧
      m.length = (s.regs 3 >>> 1) /
        (if s.store_raw_data then s.num_mics else s.num_chans) ∧
      (∀ row ∈ m, row.length =
        (if s.store_raw_data then s.num_mics else s.num_chans)) ∧
      (∃ w, w ≤ 1 ∧ m.flatten = (d w).take (s.regs 3 >>> 1)) := by
  have h1 := swap_buffers_eq s hm
  set dim := if s.store_raw_data then s.num_mics else s.num_chans with hDim
  set which := ((s.regs 2 >>> 1) % 2 + 1) % 2 with hWhich
  set s1 : HWState := { s with regs := (fun j =>
    if j = 2 then 2 * which else s.regs j) } with hs1
  have hwhich1 : which ≤ 1 := by omega
  have hflatlen : ((d which).take (s.regs 3 >>> 1)).length = s.regs 3 >>> 1 := by
    rw [List.length_take]
    have := hlen which hwhich1
    omega
  have hmod : (s.regs 3 >>> 1) % dim = 0 := by
    obtain ⟨c, hc⟩ := hdvd
    rw [hc]
    exact Nat.mul_mod_right dim c
  have hdm1 : s1.dMapped = true := by rw [hs1]; exact hdm
  have hsr : s1.store_raw_data = s.store_raw_data := by rw [hs1]
  have hnm : s1.num_mics = s.num_mics := by rw [hs1]
  have hnc : s1.num_chans = s.num_chans := by rw [hs1]
  have hget : get_data s d =
      Res.ok (chunkRows dim ((d which).take (s.regs 3 >>> 1))) s1 := by
    simp only [get_data, h1, hdm1, if_true, hsr, hnm, hnc, ← hDim,
      npReshapeRows, hflatlen, hmod]
    simp [hdim.ne', hdm, hdm1]
  obtain ⟨hn, hrows, hjoin⟩ := chunkRows_spec dim hdim ((s.regs 3 >>> 1) / dim)
    ((d which).take (s.regs 3 >>> 1))
    (by rw [hflatlen]; exact (Nat.mul_div_cancel' hdvd).symm)
  refine ⟨_, _, hget, ?_, hn, hrows, which, hwhich1, hjoin⟩
  rw [hjoin, hflatlen]

/-- C5 counterexample: on the concrete session `closedState` (closed once),
a second `close` raises `ValueError` while `swap_buffers` raises
`TypeError` — operations invoked after close do not fail the same way as
the second explicit close, contradicting the claim that all of them raise
the one UseAfterClose error. -/
theorem C5_counterexample :
    (close closedState).errOf = some PyErr.valueErrorBare ∧
    (swap_buffers closedState).errOf = some PyErr.typeErrorNone ∧
    PyErr.valueErrorBare.cls ≠ PyErr.typeErrorNone.cls := by
  refine ⟨by decide, by decide, by decide⟩

/-- C5 (amended): `close` on an open session succeeds exactly once and a
second explicit `close` raises the bare `ValueError`; every other operation
invoked after close also fails fast, but with `TypeError` (from the cleared
`self.r`/`self.d` handles) — a different error class than the second close,
except that an out-of-range `set_gain` argument still raises its
`ValueError` before touching the cleared handle. -/
theorem C5_close_once (s : HWState)
    (hopen : s.closed = false) (hm : s.rMapped = true) (hdm : s.dMapped = true) :
    ∃ s1, close s = Res.ok () s1 ∧ s1.closed = true ∧
      (close s1).errOf = some PyErr.valueErrorBare ∧
      (swap_buffers s1).errOf = some PyErr.typeErrorNone ∧
      (get_data s1 (fun _ => [])).errOf = some PyErr.typeErrorNone ∧
      (set_gain s1 5).errOf = some PyErr.typeErrorNone ∧
      (set_store_raw_data s1 true false).errOf = some PyErr.typeErrorNone ∧
      (LED_off s1).errOf = some PyErr.typeErrorNone ∧
      (LED_on s1).errOf = some PyErr.typeErrorNone ∧
      (LED_idle s1).errOf = some PyErr.typeErrorNone ∧
      (button_press_indicate s1 3).errOf = some PyErr.typeErrorNone ∧
      (button_press_indicate_r s1 3).errOf = some PyErr.typeErrorNone ∧
      (LED_recording s1).errOf = some PyErr.typeErrorNone ∧
      PyErr.valueErrorBare.cls ≠ PyErr.typeErrorNone.cls := by
  refine ⟨{ s with rMapped := false, dMapped := false, closed := true },
    by simp [close, hopen], rfl, by simp [close, Res.errOf], ?_, ?_, ?_, ?_,
    ?_, ?_, ?_, ?_, ?_, ?_, by decide⟩
  · simp [swap_buffers, Res.errOf]
  · simp [get_data, swap_buffers, Res.errOf]
  · norm_num [set_gain, regWrite, Res.errOf]
  · simp [set_store_raw_data, regWrite, Res.errOf]
  · simp [LED_off, regRead, Res.errOf]
  · simp [LED_on, regRead, Res.errOf]
  · simp [LED_idle, LED_off, regRead, Res.errOf]
  · simp [button_press_indicate, LED_off, regRead, Res.errOf]
  · simp [button_press_indicate_r, LED_off, regRead, Res.errOf]
  · simp [LED_recording, get_button_state, regRead, Res.errOf]

/-- C5 witness: the amended behaviour on the concrete open session
`testState`. -/
theorem C5_close_once_witness :
    ∃ s1, close testState = Res.ok () s1 ∧
      (close s1).errOf = some PyErr.valueErrorBare ∧
      (swap_buffers s1).errOf = some PyErr.typeErrorNone := by
  obtain ⟨s1, h1, _, h3, h4, _⟩ := C5_close_once testState rfl rfl rfl
  exact ⟨s1, h1, h3, h4⟩

/-- C6: `set_store_raw_data b wait` updates the `_store_raw_data` mirror and
writes the capture-mode bit to register 10 so that afterwards the mirror
agrees with the register; with `wait` it also sleeps
`(1 / mic_freq_hz) * (num_taps + 10)` seconds and performs exactly one
buffer swap, and without `wait` it sleeps and swaps nothing. -/
theorem C6_set_store_raw_data (s : HWState) (b w : Bool)
    (hm : s.rMapped = true) (hf : 0 < s.mic_freq_hz) :
    ∃ t n s1, set_store_raw_data s b w = Res.ok (t, n) s1 ∧
      s1.store_raw_data = b ∧
      s1.regs 10 = (if b then 1 else 0) ∧
      (s1.store_raw_data = true ↔ s1.regs 10 = 1) ∧
      (w = true → t = some ((1 / (s.mic_freq_hz : ℚ)) *
        ((s.num_taps : ℚ) + 10)) ∧ n = 1) ∧
      (w = false → t = none ∧ n = 0) := by
  have hmid := set_store_raw_mirror s b hm
  set sMid : HWState := { s with store_raw_data := b,
                                 regs := (fun j =>
                                   if j = 10 then (if b then 1 else 0) % 2 ^ 32
                                   else s.regs j) } with hsMid
  have hmod : ((if b then 1 else 0) : Nat) % 2 ^ 32 = (if b then 1 else 0) := by
    cases b <;> norm_num
  have hr10 : sMid.regs 10 = (if b then 1 else 0) := by
    rw [hsMid]
    simpa using hmod
  have hraw : sMid.store_raw_data = b := by rw [hsMid]
  cases w with
  | false =>
    refine ⟨none, 0, sMid, ?_, hraw, hr10, ?_, by simp, fun _ => ⟨rfl, rfl⟩⟩
    · simp only [set_store_raw_data, hmid]
      norm_num
    · rw [hraw, hr10]
      cases b <;> simp
  | true =>
    have hmMid : sMid.rMapped = true := by rw [hsMid]; exact hm
    have hswap := swap_buffers_eq sMid hmMid
    set sFin : HWState := { sMid with regs := fun j => if j = 2 then
      2 * (((sMid.regs 2 >>> 1) % 2 + 1) % 2) else sMid.regs j } with hsFin
    have hraw2 : sFin.store_raw_data = b := by rw [hsFin]
    have hr10b : sFin.regs 10 = (if b then 1 else 0) := by
      rw [hsFin]
      simpa using hr10
    have hfreq : sMid.mic_freq_hz = s.mic_freq_hz := by rw [hsMid]
    have htaps : sMid.num_taps = s.num_taps := by rw [hsMid]
    refine ⟨some ((1 / (s.mic_freq_hz : ℚ)) * ((s.num_taps : ℚ) + 10)), 1,
      sFin, ?_, hraw2, hr10b, ?_, fun _ => ⟨rfl, rfl⟩, by simp⟩
    · simp only [set_store_raw_data, hmid, hswap, hfreq, htaps]
      norm_num
    · rw [hraw2, hr10b]
      cases b <;> simp

/-- C6 witness: switching `testState` to processed mode without waiting, and
to raw mode with waiting. -/
theorem C6_set_store_raw_data_witness :
    (∃ t n s1, set_store_raw_data testState false false = Res.ok (t, n) s1 ∧
      s1.store_raw_data = false ∧ s1.regs 10 = 0) ∧
    (∃ t n s1, set_store_raw_data testState true true = Res.ok (t, n) s1 ∧
      s1.store_raw_data = true ∧ s1.regs 10 = 1) := by
  constructor
  · obtain ⟨t, n, s1, e1, e2, e3, _⟩ :=
      C6_set_store_raw_data testState false false rfl (by decide)
    exact ⟨t, n, s1, e1, e2, e3⟩
  · obtain ⟨t, n, s1, e1, e2, e3, _⟩ :=
      C6_set_store_raw_data testState true true rfl (by decide)
    exact ⟨t, n, s1, e1, e2, e3⟩

/-- C4 witness: gain 7 stores 6 in register 4 of `testState`; gain 300 is
rejected with the range error and the state is untouched. -/
theorem C4_set_gain_witness :
    (∃ s1, set_gain testState 7 = Res.ok () s1 ∧
      ((s1.regs 4 : Int) = 7 - 1) ∧
      (∀ j, j ≠ 4 → s1.regs j = testState.regs j)) ∧
    set_gain testState 300 = Res.exn .valueErrorGainRange testState :=
  ⟨(C4_set_gain testState 7 rfl).1 (by decide) (by decide),
   ((C4_set_gain testState 300 rfl).2 (by decide)).1⟩

/-- C2 witness: the concrete 800-byte offset of `testState`: raw mode with
4 mics gives a 100-row matrix of width 4; processed mode with 2 channels
gives a 200-row matrix of width 2. -/
theorem C2_get_data_shape_witness :
    (∃ mtx s1, get_data testState (fun _ => List.replicate 400 0) =
      Res.ok mtx s1 ∧ mtx.length = 100 ∧ (∀ row ∈ mtx, row.length = 4)) ∧
    (∃ mtx s1, get_data testStateProcessed (fun _ => List.replicate 400 0) =
      Res.ok mtx s1 ∧ mtx.length = 200 ∧ (∀ row ∈ mtx, row.length = 2)) := by
  constructor
  · obtain ⟨mtx, s1, e1, _, e3, e4, _⟩ :=
      C2_get_data_shape testState (fun _ => List.replicate 400 0) rfl rfl
        (by decide) (by decide)
        (by intro w _; simp only [List.length_replicate]; decide)
    have d1 : (testState.regs 3 >>> 1) /
        (if testState.store_raw_data then testState.num_mics
         else testState.num_chans) = 100 := by decide
    have d2 : (if testState.store_raw_data then testState.num_mics
        else testState.num_chans) = 4 := by decide
    rw [d1] at e3
    rw [d2] at e4
    exact ⟨mtx, s1, e1, e3, e4⟩
  · obtain ⟨mtx, s1, e1, _, e3, e4, _⟩ :=
      C2_get_data_shape testStateProcessed (fun _ => List.replicate 400 0) rfl
        rfl (by decide) (by decide)
        (by intro w _; simp only [List.length_replicate]; decide)
    have d1 : (testStateProcessed.regs 3 >>> 1) /
        (if testStateProcessed.store_raw_data then testStateProcessed.num_mics
         else testStateProcessed.num_chans) = 200 := by decide
    have d2 : (if testStateProcessed.store_raw_data then
        testStateProcessed.num_mics else testStateProcessed.num_chans) = 2 :=
      by decide
    rw [d1] at e3
    rw [d2] at e4
    exact ⟨mtx, s1, e1, e3, e4⟩

set_option maxRecDepth 4000 in
/-- C8 counterexample: at n = 1 `button_press_indicate` writes pattern 0x80,
`button_press_indicate_r` at 8 - 1 = 7 also writes 0x80, and the 8-bit
bit-reversal of 0x80 is 0x01 ≠ 0x80 — so the two tables are not index-wise
bit-reverses of each other as claimed. -/
theorem C8_counterexample :
    resLedField (button_press_indicate testState 1) = some 0x80 ∧
    resLedField (button_press_indicate_r testState 7) = some 0x80 ∧
    bitrev8 0x80 = 0x01 ∧
    resLedField (button_press_indicate testState 1) ≠ some (bitrev8 0x80) := by
  refine ⟨by decide, by decide, by decide, by decide⟩

/-- C8 (amended): the two 9-entry tables are element-reverses of each other:
for every n in 0..8 the pattern written by `button_press_indicate n` equals,
with no bit reversal, the pattern written by `button_press_indicate_r`
at 8 - n; the index-wise bit-reversal relation that does hold is that
bitrev8 of the `button_press_indicate_r` pattern is the bitwise complement
(0xFF minus) of the `button_press_indicate` pattern. -/
theorem C8_tables_reversed (s : HWState) (hm : s.rMapped = true) (n : Fin 9) :
    resLedField (button_press_indicate s ((n : Nat) : Int)) =
      some (bpiTable.getD (n : Nat) 0) ∧
    resLedField (button_press_indicate_r s (((8 - (n : Nat) : Nat)) : Int)) =
      some (bpiTable.getD (n : Nat) 0) ∧
    bitrev8 (bpiRTable.getD (n : Nat) 0) = 0xFF - bpiTable.getD (n : Nat) 0 := by
  have hlen : ((bpiTable.length : Int)) = 9 := by decide
  have hlenR : ((bpiRTable.length : Int)) = 9 := by decide
  have htbl : bpiRTable.getD (8 - (n : Nat)) 0 = bpiTable.getD (n : Nat) 0 := by
    revert n
    decide
  have h3 : bitrev8 (bpiRTable.getD (n : Nat) 0) =
      0xFF - bpiTable.getD (n : Nat) 0 := by
    revert n
    decide
  refine ⟨?_, ?_, h3⟩
  · have hb := getD_lt bpiTable 256 bpiTable_bound (by norm_num)
      (((n : Nat) : Int)).toNat
    have hpy := pyIndex_in_range bpiTable ((n : Nat) : Int)
      (Int.natCast_nonneg _) (by rw [hlen]; exact_mod_cast n.isLt)
    have h := bpi_render_core s hm ((n : Nat) : Int) _ hb hpy
    rwa [Int.toNat_natCast] at h
  · have hb := getD_lt bpiRTable 256 bpiRTable_bound (by norm_num)
      ((((8 - (n : Nat) : Nat)) : Int)).toNat
    have hlt : ((8 - (n : Nat) : Nat)) < 9 := by omega
    have hpy := pyIndex_in_range bpiRTable (((8 - (n : Nat) : Nat)) : Int)
      (Int.natCast_nonneg _) (by rw [hlenR]; exact_mod_cast hlt)
    have h := bpiR_render_core s hm (((8 - (n : Nat) : Nat)) : Int) _ hb hpy
    rwa [Int.toNat_natCast, htbl] at h

/-- C8 witness: index 2 on the concrete `testState`. -/
theorem C8_tables_reversed_witness :
    resLedField (button_press_indicate testState ((2 : Nat) : Int)) =
      some (bpiTable.getD 2 0) ∧
    resLedField (button_press_indicate_r testState (((8 - (2 : Nat) : Nat)) : Int)) =
      some (bpiTable.getD 2 0) := by
  have h := C8_tables_reversed testState rfl 2
  exact ⟨h.1, h.2.1⟩

set_option maxRecDepth 4000 in
/-- C9 counterexample: index -1 is outside 0..8, yet
`button_press_indicate testState (-1)` raises nothing and renders table
entry 8 (0xFF) by Python negative indexing — refuting the claim that every
index outside 0..8 is an error writing no table pattern. -/
theorem C9_counterexample :
    (button_press_indicate testState (-1)).errOf = none ∧
    resLedField (button_press_indicate testState (-1)) = some 0xFF := by
  refine ⟨by decide, by decide⟩

/-- C9 (amended): for n in 0..8 both indicators render their n-th table
entry; for n ≥ 9 or n ≤ -10 they raise IndexError and write no table
pattern (the LED field having already been cleared by the LED_off prefix);
for -9 ≤ n ≤ -1 Python negative indexing applies and the call renders
entry n + 9 instead of raising. -/
theorem C9_button_press_range (s : HWState) (i : Int) (hm : s.rMapped = true) :
    (0 ≤ i → i ≤ 8 →
      resLedField (button_press_indicate s i) =
        some (bpiTable.getD i.toNat 0) ∧
      resLedField (button_press_indicate_r s i) =
        some (bpiRTable.getD i.toNat 0)) ∧
    ((9 ≤ i ∨ i ≤ -10) →
      (button_press_indicate s i).errOf = some PyErr.indexError ∧
      (button_press_indicate_r s i).errOf = some PyErr.indexError ∧
      ledField ((button_press_indicate s i).state) = 0) ∧
    (-9 ≤ i → i ≤ -1 →
      resLedField (button_press_indicate s i) =
        some (bpiTable.getD (i + 9).toNat 0) ∧
      resLedField (button_press_indicate_r s i) =
        some (bpiRTable.getD (i + 9).toNat 0)) := by
  have hlen : ((bpiTable.length : Int)) = 9 := by decide
  have hlenR : ((bpiRTable.length : Int)) = 9 := by decide
  refine ⟨?_, ?_, ?_⟩
  · intro h0 h8
    constructor
    · exact bpi_render_core s hm i _
        (getD_lt bpiTable 256 bpiTable_bound (by norm_num) _)
        (pyIndex_in_range bpiTable i h0 (by omega))
    · exact bpiR_render_core s hm i _
        (getD_lt bpiRTable 256 bpiRTable_bound (by norm_num) _)
        (pyIndex_in_range bpiRTable i h0 (by omega))
  · intro hoob
    have h1 := bpi_oob_core s hm i (pyIndex_oob bpiTable i (by omega))
    have h2 := bpiR_oob_core s hm i (pyIndex_oob bpiRTable i (by omega))
    exact ⟨h1.1, h2, h1.2⟩
  · intro h9 h1i
    constructor
    · have hpy := pyIndex_neg bpiTable i (by omega) (by omega)
      rw [hlen] at hpy
      exact bpi_render_core s hm i _
        (getD_lt bpiTable 256 bpiTable_bound (by norm_num) _) hpy
    · have hpy := pyIndex_neg bpiRTable i (by omega) (by omega)
      rw [hlenR] at hpy
      exact bpiR_render_core s hm i _
        (getD_lt bpiRTable 256 bpiRTable_bound (by norm_num) _) hpy

/-- C9 witness: indices 3 (in range), 9 (IndexError) and -2 (negative
wrapping) on `testState`. -/
theorem C9_button_press_range_witness :
    resLedField (button_press_indicate testState 3) =
      some (bpiTable.getD (3 : Int).toNat 0) ∧
    (button_press_indicate testState 9).errOf = some PyErr.indexError ∧
    resLedField (button_press_indicate testState (-2)) =
      some (bpiTable.getD ((-2 : Int) + 9).toNat 0) := by
  refine ⟨((C9_button_press_range testState 3 rfl).1 (by decide) (by decide)).1,
    ((C9_button_press_range testState 9 rfl).2.1 (Or.inl (by decide))).1,
    ((C9_button_press_range testState (-2) rfl).2.2 (by decide) (by decide)).1⟩

/-- C10: every LED operation modifies only the 8-bit LED field (bits 5..12)
of register 11: for every prior 32-bit register value, the button bit
(bit 0), the gain-switch bits (1..4) and everything from bit 13 up (the
off-button bit included) read back unchanged after `LED_off`, `LED_on`,
`LED_idle`, `button_press_indicate`, `button_press_indicate_r` and
`LED_recording`, whether the call returns or raises. -/
theorem C10_led_frame (s : HWState) (n m : Int)
    (hm : s.rMapped = true) (hv : s.regs 11 < 2 ^ 32) :
    reg11FrameOk (s.regs 11) ((LED_off s).state.regs 11) ∧
    reg11FrameOk (s.regs 11) ((LED_on s).state.regs 11) ∧
    reg11FrameOk (s.regs 11) ((LED_idle s).state.regs 11) ∧
    reg11FrameOk (s.regs 11) ((button_press_indicate s n).state.regs 11) ∧
    reg11FrameOk (s.regs 11) ((button_press_indicate_r s m).state.regs 11) ∧
    reg11FrameOk (s.regs 11) ((LED_recording s).state.regs 11) := by
  have hoff := LED_off_eq' s hm
  set sOff : HWState := { s with regs := (fun j =>
    if j = 11 then s.regs 11 &&& (0xFFFFFFFF ^^^ (0xFF <<< 5))
    else s.regs j) } with hsOff
  have hmOff : sOff.rMapped = true := by rw [hsOff]; exact hm
  have hOffr : sOff.regs 11 = s.regs 11 &&& (0xFFFFFFFF ^^^ (0xFF <<< 5)) := by
    rw [hsOff]
    dsimp only
    rw [if_pos rfl]
  have hvOff : sOff.regs 11 < 2 ^ 32 := by rw [hOffr]; exact and_mask_lt _
  have hframeOff : reg11FrameOk (s.regs 11) (sOff.regs 11) := by
    rw [hOffr]
    exact frame_and_mask _ hv
  have hstep : ∀ pat : Nat, pat < 256 →
      reg11FrameOk (s.regs 11) (sOff.regs 11 ||| (pat <<< 5)) := by
    intro pat hpat
    exact reg11FrameOk_trans hframeOff (frame_or_pat _ _ hpat)
  refine ⟨?_, ?_, ?_, ?_, ?_, ?_⟩
  · rw [hoff]
    exact hframeOff
  · rw [LED_on_eq' s hm hv]
    exact frame_or_pat _ _ (by norm_num)
  · cases hpy : pyIndex ledIdleTable sOff.idle_num with
    | none =>
      simp only [LED_idle, hoff, hpy, Res.state]
      exact hframeOff
    | some pat =>
      have hpat : pat < 256 :=
        pyIndex_lt _ 256 ledIdleTable_bound (by norm_num) _ _ hpy
      have hor := ledFieldOr_eq' sOff pat hmOff hvOff hpat
      simp only [LED_idle, hoff, hpy, hor, Res.state]
      exact hstep pat hpat
  · cases hpy : pyIndex bpiTable n with
    | none =>
      simp only [button_press_indicate, hoff, hpy, Res.state]
      exact hframeOff
    | some pat =>
      have hpat : pat < 256 :=
        pyIndex_lt _ 256 bpiTable_bound (by norm_num) _ _ hpy
      have hor := ledFieldOr_eq' sOff pat hmOff hvOff hpat
      simp only [button_press_indicate, hoff, hpy, hor, Res.state]
      exact hstep pat hpat
  · cases hpy : pyIndex bpiRTable m with
    | none =>
      simp only [button_press_indicate_r, hoff, hpy, Res.state]
      exact hframeOff
    | some pat =>
      have hpat : pat < 256 :=
        pyIndex_lt _ 256 bpiRTable_bound (by norm_num) _ _ hpy
      have hor := ledFieldOr_eq' sOff pat hmOff hvOff hpat
      simp only [button_press_indicate_r, hoff, hpy, hor, Res.state]
      exact hstep pat hpat
  · have hbtn : get_button_state s = Res.ok ((s.regs 11 &&& 1) == 1) s := by
      simp [get_button_state, regRead, hm]
    by_cases hpress : ((s.regs 11 &&& 1) == 1) = true
    · simp only [LED_recording, hbtn, hpress, if_true, Res.state]
      exact reg11FrameOk_refl _
    · rw [Bool.not_eq_true] at hpress
      by_cases h5 : s.rec_blink_value % 5 = 0
      · by_cases hbs : s.rec_blink_state = true
        · have hOn := LED_on_eq' s hm hv
          simp only [LED_recording, hbtn, hpress, h5, hbs, Bool.false_eq_true,
            if_true, if_false, hOn, Res.state]
          exact frame_or_pat _ _ (by norm_num)
        · rw [Bool.not_eq_true] at hbs
          simp only [LED_recording, hbtn, hpress, h5, hbs, Bool.false_eq_true,
            if_true, if_false, hoff, Res.state]
          exact hframeOff
      · simp only [LED_recording, hbtn, hpress, h5, Bool.false_eq_true,
          if_false, Res.state]
        exact reg11FrameOk_refl _

/-- C10 witness: the frame facts instantiated on `testState` (register 11
holding 0x2003: button, one gain-switch bit and the off-button bit). -/
theorem C10_led_frame_witness :
    reg11FrameOk (testState.regs 11) ((LED_off testState).state.regs 11) ∧
    reg11FrameOk (testState.regs 11) ((LED_on testState).state.regs 11) ∧
    reg11FrameOk (testState.regs 11) ((LED_recording testState).state.regs 11) := by
  have h := C10_led_frame testState 3 3 rfl (by decide)
  exact ⟨h.1, h.2.1, h.2.2.2.2.2⟩

end HWModel
